import Mathlib

/-!
Verification of the calendar document composition engine
(`apps/calendars/models.py` and `apps/calendars/utils.py`).

The Python code is shallowly embedded: dates are triples of naturals with
proleptic-Gregorian arithmetic matching Python's `datetime.date`
(`toOrdinal` is `date.toordinal`, `pyWeekday` is `date.weekday`,
Monday = 0); code that can raise is modelled with `Except String`
(the error value standing for the Python exception), and
`get_holiday_date`'s `try/except` maps any error to `none`.
-/

namespace Cal

/-- Gregorian leap-year test, as Python's `calendar.isleap`. -/
def isLeap (y : Nat) : Bool :=
  (y % 4 == 0 && y % 100 != 0) || y % 400 == 0

/-- Days in a month, as Python's `calendar.monthrange(y, m)[1]`
(any `m` outside 1..12 is irrelevant to the embedded code paths). -/
def daysInMonth (y m : Nat) : Nat :=
  if m = 2 then (if isLeap y then 29 else 28)
  else if m = 4 ∨ m = 6 ∨ m = 9 ∨ m = 11 then 30
  else 31

/-- A calendar date, the embedding of Python's `datetime.date` value
(validity is enforced at construction by `pyDate`). -/
structure Date where
  year : Nat
  month : Nat
  day : Nat
deriving DecidableEq, Repr

/-- Days in the months of year `y` strictly before month `m`. -/
def daysBeforeMonth (y m : Nat) : Nat :=
  (List.range (m - 1)).foldl (fun acc i => acc + daysInMonth y (i + 1)) 0

/-- Python's `date.toordinal`: day 1 is January 1 of year 1. -/
def toOrdinal (d : Date) : Nat :=
  365 * (d.year - 1) + (d.year - 1) / 4 - (d.year - 1) / 100 + (d.year - 1) / 400
    + daysBeforeMonth d.year d.month + d.day

/-- Python's `date.weekday`: 0 = Monday .. 6 = Sunday.
January 1 of year 1 (ordinal 1) is a Monday. -/
def pyWeekday (d : Date) : Nat :=
  (toOrdinal d + 6) % 7

/-- Successor day in the proleptic Gregorian calendar. -/
def nextDay (d : Date) : Date :=
  if d.day < daysInMonth d.year d.month then ⟨d.year, d.month, d.day + 1⟩
  else if d.month < 12 then ⟨d.year, d.month + 1, 1⟩
  else ⟨d.year + 1, 1, 1⟩

/-- Predecessor day in the proleptic Gregorian calendar. -/
def predDay (d : Date) : Date :=
  if 1 < d.day then ⟨d.year, d.month, d.day - 1⟩
  else if 1 < d.month then ⟨d.year, d.month - 1, daysInMonth d.year (d.month - 1)⟩
  else ⟨d.year - 1, 12, 31⟩

/-- Add `n` days to a date. -/
def addDays (d : Date) : Nat → Date
  | 0 => d
  | n + 1 => addDays (nextDay d) n

/-- Subtract `n` days from a date. -/
def subDays (d : Date) : Nat → Date
  | 0 => d
  | n + 1 => subDays (predDay d) n

/-- Python's `date ± timedelta(days=k)`: raises `OverflowError` when the
result leaves the representable range `date(1,1,1) .. date(9999,12,31)`
(walking below year 1 lands in a "year 0" marker rejected by the check). -/
def date_add_timedelta (d : Date) (k : Int) : Except String Date :=
  let r := if 0 ≤ k then addDays d k.toNat else subDays d (-k).toNat
  if 1 ≤ r.year ∧ r.year ≤ 9999 then .ok r else .error "OverflowError"

/-- Python's `date(y, m, d)` constructor: raises `ValueError` on any
argument outside the representable calendar. -/
def pyDate (y m d : Nat) : Except String Date :=
  if 1 ≤ y ∧ y ≤ 9999 ∧ 1 ≤ m ∧ m ≤ 12 ∧ 1 ≤ d ∧ d ≤ daysInMonth y m
  then .ok ⟨y, m, d⟩ else .error "ValueError"

/-- `HolidayCalculator._get_first_monday_of_month`: note the
`days_ahead <= 0` adjustment, which fires even when day 1 already is a
Monday (`days_ahead = 0`). -/
def get_first_monday_of_month (year month : Nat) : Except String Date :=
  match pyDate year month 1 with
  | .error e => .error e
  | .ok firstDay =>
    let daysAhead : Int := 0 - (pyWeekday firstDay : Int)
    let daysAhead := if daysAhead ≤ 0 then daysAhead + 7 else daysAhead
    date_add_timedelta firstDay daysAhead

/-- `HolidayCalculator._get_last_monday_of_month`. -/
def get_last_monday_of_month (year month : Nat) : Except String Date :=
  match pyDate year month (daysInMonth year month) with
  | .error e => .error e
  | .ok lastDate =>
    let daysBack := (pyWeekday lastDate - 0) % 7
    if daysBack = 0 then .ok lastDate
    else date_add_timedelta lastDate (-(daysBack : Int))

/-- `HolidayCalculator._get_nth_weekday_of_month`: the final guard
compares only the month number of the target date. -/
def get_nth_weekday_of_month (year month weekday n : Nat) :
    Except String (Option Date) :=
  match pyDate year month 1 with
  | .error e => .error e
  | .ok firstDay =>
    let daysAheadInt : Int := (weekday : Int) - (pyWeekday firstDay : Int)
    let daysAheadAdj : Int := if daysAheadInt < 0 then daysAheadInt + 7 else daysAheadInt
    match date_add_timedelta firstDay (daysAheadAdj + ((n : Int) - 1) * 7) with
    | .error e => .error e
    | .ok targetDate =>
      if targetDate.month = month then .ok (some targetDate) else .ok none

/-- `HolidayCalculator._calculate_easter`: anonymous Gregorian computus.
Lean's `Int` division and modulo are Euclidean, which for the positive
divisors used here coincide with Python's floor `//` and `%`; the result
is `(month, day)`. -/
def calculate_easter (year : Int) : Int × Int :=
  let a := year % 19
  let b := year / 100
  let c := year % 100
  let d := b / 4
  let e := b % 4
  let f := (b + 8) / 25
  let g := (b - f + 1) / 3
  let h := (19 * a + b - d - g + 15) % 30
  let i := c / 4
  let k := c % 4
  let l := (32 + 2 * e + 2 * i - h - k) % 7
  let m := (a + 11 * h + 22 * l) / 451
  let month := (h + l - 7 * m + 114) / 31
  let day := (h + l - 7 * m + 114) % 31 + 1
  (month, day)

/-- Transcription of the spec's §4.1 Easter formula, with the exact
floor-division semantics the spec demands (for these positive divisors,
Euclidean `Int` division is floor division). -/
def easter_spec_formula (Y : Int) : Int × Int :=
  let a := Y % 19
  let b := Y / 100
  let c := Y % 100
  let d := b / 4
  let e := b % 4
  let f := (b + 8) / 25
  let g := (b - f + 1) / 3
  let h := (19 * a + b - d - g + 15) % 30
  let i := c / 4
  let k := c % 4
  let l := (32 + 2 * e + 2 * i - h - k) % 7
  let m := (a + 11 * h + 22 * l) / 451
  ((h + l - 7 * m + 114) / 31, (h + l - 7 * m + 114) % 31 + 1)

/-- The `easter` branch of `get_holiday_date`: build
`date(year, month, day)` from the computus result (an out-of-range
component raises, as in Python; a negative one clamps to 0 under `toNat`
and is likewise rejected by `pyDate`). -/
def easter_date (year : Nat) : Except String Date :=
  let md := calculate_easter (year : Int)
  pyDate year md.1.toNat md.2.toNat

/-- Body of `HolidayCalculator.get_holiday_date` before its `try/except`
wrapper: the if-chain over the nine known holiday names. -/
def get_holiday_date_body (holidayName : String) (year : Nat) :
    Except String (Option Date) :=
  if holidayName = "new_years" then (pyDate year 1 1).map some
  else if holidayName = "memorial_day" then (get_last_monday_of_month year 5).map some
  else if holidayName = "independence_day" then (pyDate year 7 4).map some
  else if holidayName = "labor_day" then (get_first_monday_of_month year 9).map some
  else if holidayName = "thanksgiving" then get_nth_weekday_of_month year 11 3 4
  else if holidayName = "christmas" then (pyDate year 12 25).map some
  else if holidayName = "easter" then (easter_date year).map some
  else if holidayName = "mothers_day" then get_nth_weekday_of_month year 5 6 2
  else if holidayName = "fathers_day" then get_nth_weekday_of_month year 6 6 3
  else .ok none

/-- `HolidayCalculator.get_holiday_date`: the `try/except Exception`
wrapper turns every raised error into `None`. -/
def get_holiday_date (holidayName : String) (year : Nat) : Option Date :=
  match get_holiday_date_body holidayName year with
  | .ok r => r
  | .error _ => none

/-- Spec-side notion (§4.1): the first occurrence of weekday `w`
(0 = Monday .. 6 = Sunday) in month `m` of year `y`; its day is in 1..7. -/
def first_weekday_occurrence (y m w : Nat) : Date :=
  ⟨y, m, 1 + (w + 7 - pyWeekday ⟨y, m, 1⟩) % 7⟩

/-- Number of week rows of Python's `calendar.monthcalendar(y, m)` under
module firstweekday `fw` (0 = Monday .. 6 = Sunday): the rows cover an
initial offset of `(weekday(y,m,1) - fw) % 7` blank cells plus the days
of the month (for `fw ≤ 6` the floor-mod equals the form used here). -/
def monthcalendar_weeks (y m fw : Nat) : Nat :=
  let offset := (pyWeekday ⟨y, m, 1⟩ + 7 - fw) % 7
  (offset + daysInMonth y m + 6) / 7

/-- Row height chosen in `generate_month_content` (and the identical
table in `create_day_cell`), in hundredths of an inch:
`1.65"` for 4 weeks, `1.1"` for 6 weeks, else `1.3"`. -/
def row_height_for_weeks (numWeeks : Nat) : Nat :=
  if numWeeks = 4 then 165 else if numWeeks = 6 then 110 else 130

/-- Sizing data of one rendered month page, all lengths in hundredths of
an inch. `tierPassed` is `self.current_month_weeks` as read by
`create_day_cell`; `gridRows` the week rows of the table actually built;
`rowHeightCenti` the table's row height; `cellAvailableHeightCenti` the
height `create_day_cell` budgets from `tierPassed`. -/
structure MonthRenderInfo where
  tierPassed : Nat
  gridRows : Nat
  rowHeightCenti : Nat
  cellAvailableHeightCenti : Nat
  headerHeightCenti : Nat
  colWidthCenti : Nat
deriving DecidableEq, Repr

/-- Claim-relevant projection of `CalendarPDFGenerator.generate_month_content`.
`fwState` is the `calendar` module's mutable firstweekday at entry:
`self.current_month_weeks` is set from `cal.monthcalendar` BEFORE
`cal.setfirstweekday(6)` runs, while the table grid (and its
`num_weeks`) is recomputed after it; the call leaves the module state
at 6, which is returned as the second component. -/
def generate_month_content (fwState y m : Nat) : MonthRenderInfo × Nat :=
  let tier := monthcalendar_weeks y m fwState
  let rows := monthcalendar_weeks y m 6
  (⟨tier, rows, row_height_for_weeks rows, row_height_for_weeks tier, 30, 148⟩, 6)

/-- Claim-relevant projection of `generate_calendar_only`: the twelve
month pages in order, threading the `calendar` module's firstweekday
state (`fw0` = its value when generation starts; Python's module default
is 0, Monday). -/
def generate_calendar_only (fw0 y : Nat) : List MonthRenderInfo :=
  ((List.range 12).foldl
    (fun (acc : List MonthRenderInfo × Nat) i =>
      let r := generate_month_content acc.2 y (i + 1)
      (acc.1 ++ [r.1], r.2))
    ([], fw0)).1

/-- `CalendarPDFGenerator.get_optimal_font_size` with a character budget
`maxWidthChars`; `text_length <= max_width_chars * 1.5` is rendered as
`2 * textLength ≤ 3 * maxWidthChars`, which agrees with the Python float
comparison on integer lengths. -/
def get_optimal_font_size (numWeeks textLength maxWidthChars : Nat) : Nat :=
  if numWeeks = 6 then
    if textLength ≤ maxWidthChars then 8
    else if 2 * textLength ≤ 3 * maxWidthChars then 7
    else 6
  else
    if textLength ≤ maxWidthChars then 10
    else if 2 * textLength ≤ 3 * maxWidthChars then 9
    else 8

/-- Thumbnail processing size and display size per week tier, from
`create_day_cell`: `((process_w, process_h), (display_w, display_h))`. -/
def thumbnail_sizes (numWeeks : Nat) : (Nat × Nat) × (Nat × Nat) :=
  if numWeeks = 4 then ((200, 150), (105, 80))
  else if numWeeks = 6 then ((150, 110), (80, 60))
  else ((180, 130), (95, 70))

/-- `CalendarPDFGenerator.combine_with_headers`, as a function on page
lists: each Python loop `for page_idx in range(..)` guarded by
`page_idx < len(pages)` becomes a `filterMap` of `getElem?` over the
same index range (Python's `range(a, b)` is `List.range' a (b - a)`). -/
def combine_with_headers {P : Type} (headerPages : List P) (januaryPage : Nat)
    (calendarPages : List P) : List P :=
  ((List.range (januaryPage - 1)).filterMap (fun i => headerPages[i]?))
  ++ ((List.range 12).flatMap (fun month =>
        (headerPages[januaryPage - 1 + month]?).toList
        ++ (calendarPages[month]?).toList))
  ++ ((List.range' (januaryPage - 1 + 12)
        (headerPages.length - (januaryPage - 1 + 12))).filterMap
        (fun i => headerPages[i]?))

/-- The spec's §4.6 merge rule, stated with `take`/`drop`: front matter
(header pages strictly before the 0-based january index), then for each
month the header page at `january_page_index - 1 + month` if it exists
followed by that month's calendar page, then back matter. -/
def merge_spec {P : Type} (headerPages : List P) (januaryPage : Nat)
    (calendarPages : List P) : List P :=
  headerPages.take (januaryPage - 1)
  ++ ((List.range 12).flatMap (fun month =>
        (headerPages[januaryPage - 1 + month]?).toList
        ++ (calendarPages[month]?).toList))
  ++ headerPages.drop (januaryPage - 1 + 12)

/-- Layout preference for `CalendarEvent.create_combined_image`
(`UserEventPreferences.IMAGE_LAYOUT_CHOICES`). -/
inductive ImageLayout
  | auto
  | side_by_side
  | top_bottom
  | grid
deriving DecidableEq, Repr

/-- A pasted rectangle on the combined canvas: position and the resized
dimensions, in canvas units. -/
structure Region where
  x : Nat
  y : Nat
  w : Nat
  h : Nat
deriving DecidableEq, Repr

/-- The paste operations of `CalendarEvent.create_combined_image`, in
execution order: each event with an image (`some img`) is resized and
pasted per the branch on the number of events; events without images are
skipped. `α` is the image payload — placement never inspects it. -/
def create_combined_image_pastes {α : Type} (eventImages : List (Option α))
    (layoutPreference : ImageLayout) (targetWidth targetHeight : Nat) :
    List (α × Region) :=
  let numEvents := eventImages.length
  if numEvents = 2 then
    if layoutPreference = ImageLayout.top_bottom then
      eventImages.enum.filterMap (fun p =>
        match p.2 with
        | some img =>
            some (img, ⟨0, p.1 * (targetHeight / 2), targetWidth, targetHeight / 2⟩)
        | none => none)
    else
      eventImages.enum.filterMap (fun p =>
        match p.2 with
        | some img =>
            some (img, ⟨p.1 * (targetWidth / 2), 0, targetWidth / 2, targetHeight⟩)
        | none => none)
  else if numEvents = 3 then
    eventImages.enum.filterMap (fun p =>
      match p.2 with
      | some img =>
          if p.1 = 0 then some (img, ⟨0, 0, targetWidth, targetHeight / 2⟩)
          else some (img, ⟨(p.1 - 1) * (targetWidth / 2), targetHeight / 2,
                           targetWidth / 2, targetHeight / 2⟩)
      | none => none)
  else if 4 ≤ numEvents then
    (eventImages.take 4).enum.filterMap (fun p =>
      match p.2 with
      | some img =>
          some (img, ⟨(p.1 % 2) * (targetWidth / 2), (p.1 / 2) * (targetHeight / 2),
                      targetWidth / 2, targetHeight / 2⟩)
      | none => none)
  else []

/-- `CalendarEvent.create_combined_image` returns `None` for at most one
event, otherwise composes the canvas; PIL failures are modelled by the
callers passing the call's outcome explicitly (see `create_day_cell`). -/
def create_combined_image_model {α : Type} (eventImages : List (Option α))
    (layoutPreference : ImageLayout) (targetWidth targetHeight : Nat) :
    Option (List (α × Region)) :=
  if eventImages.length ≤ 1 then none
  else some (create_combined_image_pastes eventImages layoutPreference
              targetWidth targetHeight)

/-- A region lies in the left half of a `tw × th` canvas. -/
def inLeftHalf (r : Region) (tw th : Nat) : Prop :=
  r.x + r.w ≤ tw / 2 ∧ r.y + r.h ≤ th

/-- A region lies in the right half of a `tw × th` canvas. -/
def inRightHalf (r : Region) (tw th : Nat) : Prop :=
  tw / 2 ≤ r.x ∧ r.x + r.w ≤ tw ∧ r.y + r.h ≤ th

/-- A calendar event as seen by the PDF generator: `image` is the stored
image's path when present. -/
structure PyEvent where
  month : Nat
  day : Nat
  displayName : String
  image : Option String
deriving DecidableEq, Repr

/-- `CalendarEvent.get_combined_display_name`: join the per-event display
names with " & " (first name alone, or empty, for at most one event). -/
def get_combined_display_name (events : List PyEvent) : String :=
  if events.length ≤ 1 then
    match events with
    | [] => ""
    | e :: _ => e.displayName
  else String.intercalate " & " (events.map PyEvent.displayName)

/-- Outcome of `create_day_cell` relevant to the claims: either the plain
day-number cell of an empty day, or an event cell with the image path
actually rendered, the display name, and whether the image is the
combined composite. -/
inductive DayCell
  | plainDay (day : Nat)
  | eventCell (day : Nat) (imagePath : Option String) (displayName : String)
      (isCombined : Bool)
deriving DecidableEq, Repr

/-- `CalendarPDFGenerator.create_day_cell` selection logic.
`combinedImgPath` is the value returned by the
`CalendarEvent.create_combined_image` call for this day (`none` both
when composing failed and when it was not attempted); it is only
consulted when the day carries more than one event. -/
def create_day_cell (day : Nat) (eventsList : List PyEvent)
    (combinedImgPath : Option String) : DayCell :=
  match eventsList with
  | [] => DayCell.plainDay day
  | e :: rest =>
    if 0 < rest.length then
      match combinedImgPath with
      | some p =>
          DayCell.eventCell day (some p) (get_combined_display_name (e :: rest)) true
      | none =>
          let ev := ((e :: rest).find? (fun x => x.image.isSome)).getD e
          DayCell.eventCell day ev.image (get_combined_display_name (e :: rest)) false
    else DayCell.eventCell day e.image e.displayName false

/-! Helper lemmas. -/

/-- A Python loop `for i in range(n)` appending `l[i]` under an
`i < len(l)` guard collects exactly `l.take n`. -/
theorem filterMap_getElem_range {P : Type} (l : List P) (n : Nat) :
    (List.range n).filterMap (fun i => l[i]?) = l.take n := by
  induction n with
  | zero => simp
  | succ n ih =>
    rw [List.range_succ, List.filterMap_append, ih, List.take_succ]
    cases h : l[n]? <;> simp [h]

theorem filterMap_getElem_range_from {P : Type} (l : List P) :
    ∀ n k, k + n = l.length →
      (List.range' k n).filterMap (fun i => l[i]?) = l.drop k := by
  intro n
  induction n with
  | zero =>
    intro k hk
    have h : l.length ≤ k := by omega
    simp [List.drop_eq_nil_of_le h]
  | succ n ih =>
    intro k hk
    have hklt : k < l.length := by omega
    rw [List.range'_succ]
    simp only [List.filterMap_cons, getElem?_pos l k hklt]
    rw [ih (k + 1) (by omega)]
    exact (List.drop_eq_getElem_cons hklt).symm

/-- A Python loop `for i in range(k, len(l))` appending `l[i]` collects
exactly `l.drop k`. -/
theorem filterMap_getElem_drop {P : Type} (l : List P) (k : Nat) :
    (List.range' k (l.length - k)).filterMap (fun i => l[i]?) = l.drop k := by
  rcases le_or_lt k l.length with h | h
  · exact filterMap_getElem_range_from l (l.length - k) k (by omega)
  · have h0 : l.length - k = 0 := by omega
    rw [h0]
    simp [List.drop_eq_nil_of_le (Nat.le_of_lt h)]

/-- Every month length lies between 28 and 31 days. -/
theorem daysInMonth_bounds (y m : Nat) :
    28 ≤ daysInMonth y m ∧ daysInMonth y m ≤ 31 := by
  unfold daysInMonth
  split_ifs <;> omega

/-- Day addition composes. -/
theorem addDays_add (d : Date) (a b : Nat) :
    addDays d (a + b) = addDays (addDays d a) b := by
  induction a generalizing d with
  | zero =>
    rw [Nat.zero_add]
    rfl
  | succ a ih =>
    have h : a + 1 + b = (a + b) + 1 := by omega
    rw [h]
    show addDays (nextDay d) (a + b) = addDays (addDays (nextDay d) a) b
    exact ih (nextDay d)

/-- Adding days that stay inside the month just moves the day number. -/
theorem addDays_within (y m : Nat) :
    ∀ k d, 1 ≤ d → d + k ≤ daysInMonth y m →
      addDays ⟨y, m, d⟩ k = ⟨y, m, d + k⟩ := by
  intro k
  induction k with
  | zero => intro d h1 h2; rfl
  | succ k ih =>
    intro d h1 h2
    have hn : nextDay ⟨y, m, d⟩ = ⟨y, m, d + 1⟩ := by
      unfold nextDay
      dsimp only
      rw [if_pos (show d < daysInMonth y m by omega)]
    show addDays (nextDay ⟨y, m, d⟩) k = ⟨y, m, d + (k + 1)⟩
    rw [hn, ih (d + 1) (by omega) (by omega)]
    have h3 : d + 1 + k = d + (k + 1) := by omega
    rw [h3]

/-- Adding days that overflow the month (but not the next one) lands in
the following month of the same year when `m < 12`. -/
theorem addDays_next_month (y m : Nat) (hm : m < 12) :
    ∀ k d, 1 ≤ d → d ≤ daysInMonth y m → daysInMonth y m < d + k →
      d + k ≤ daysInMonth y m + daysInMonth y (m + 1) →
      addDays ⟨y, m, d⟩ k = ⟨y, m + 1, d + k - daysInMonth y m⟩ := by
  intro k d h1 h2 h3 h4
  have hsplit : k = (daysInMonth y m - d) + ((d + k - daysInMonth y m - 1) + 1) := by
    omega
  rw [hsplit, addDays_add]
  rw [addDays_within y m (daysInMonth y m - d) d h1 (by omega)]
  have hd : d + (daysInMonth y m - d) = daysInMonth y m := by omega
  rw [hd]
  show addDays (nextDay ⟨y, m, daysInMonth y m⟩) (d + k - daysInMonth y m - 1) = _
  have hnx : nextDay ⟨y, m, daysInMonth y m⟩ = ⟨y, m + 1, 1⟩ := by
    unfold nextDay
    dsimp only
    rw [if_neg (by omega), if_pos hm]
  rw [hnx]
  rw [addDays_within y (m + 1) (d + k - daysInMonth y m - 1) 1 (by omega) (by omega)]
  congr 1
  omega

/-- Adding days that overflow December (but not past next January) lands
in January of the following year. -/
theorem addDays_next_year (y : Nat) :
    ∀ k d, 1 ≤ d → d ≤ daysInMonth y 12 → daysInMonth y 12 < d + k →
      d + k ≤ daysInMonth y 12 + 31 →
      addDays ⟨y, 12, d⟩ k = ⟨y + 1, 1, d + k - daysInMonth y 12⟩ := by
  intro k d h1 h2 h3 h4
  have hsplit : k = (daysInMonth y 12 - d) + ((d + k - daysInMonth y 12 - 1) + 1) := by
    omega
  rw [hsplit, addDays_add]
  rw [addDays_within y 12 (daysInMonth y 12 - d) d h1 (by omega)]
  have hd : d + (daysInMonth y 12 - d) = daysInMonth y 12 := by omega
  rw [hd]
  show addDays (nextDay ⟨y, 12, daysInMonth y 12⟩) (d + k - daysInMonth y 12 - 1) = _
  have hnx : nextDay ⟨y, 12, daysInMonth y 12⟩ = ⟨y + 1, 1, 1⟩ := by
    unfold nextDay
    dsimp only
    rw [if_neg (by omega), if_neg (by omega)]
  rw [hnx]
  have h31 : daysInMonth (y + 1) 1 = 31 := rfl
  rw [addDays_within (y + 1) 1 (d + k - daysInMonth y 12 - 1) 1 (by omega)
    (by rw [h31]; omega)]
  congr 1
  omega

/-- A nonnegative `timedelta` whose result stays in range reduces to
`addDays`. -/
theorem date_add_timedelta_nonneg (d : Date) (k : Int) (hk : 0 ≤ k)
    (hy : 1 ≤ (addDays d k.toNat).year ∧ (addDays d k.toNat).year ≤ 9999) :
    date_add_timedelta d k = .ok (addDays d k.toNat) := by
  unfold date_add_timedelta
  dsimp only
  rw [if_pos hk, if_pos hy]

/-- The ordinal of a later day in the same month. -/
theorem toOrdinal_day_shift (y m : Nat) (j : Nat) :
    toOrdinal ⟨y, m, 1 + j⟩ = toOrdinal ⟨y, m, 1⟩ + j := by
  unfold toOrdinal
  dsimp only
  omega

/-- Unfolding of `get_nth_weekday_of_month` once `date(y, m, 1)` is known
to construct and the `timedelta` addition is known to succeed. -/
theorem get_nth_weekday_eq_of_ok (y m w n : Nat) (t : Date)
    (hpy : pyDate y m 1 = .ok ⟨y, m, 1⟩)
    (htd : date_add_timedelta ⟨y, m, 1⟩
      ((if (w : Int) - (pyWeekday ⟨y, m, 1⟩ : Int) < 0
        then (w : Int) - (pyWeekday ⟨y, m, 1⟩ : Int) + 7
        else (w : Int) - (pyWeekday ⟨y, m, 1⟩ : Int)) + ((n : Int) - 1) * 7) = .ok t) :
    get_nth_weekday_of_month y m w n
      = if t.month = m then .ok (some t) else .ok none := by
  unfold get_nth_weekday_of_month
  split
  next e heq =>
    rw [hpy] at heq
    exact absurd heq (by simp)
  next firstDay heq =>
    rw [hpy] at heq
    have hfd : firstDay = ⟨y, m, 1⟩ := by
      injection heq with h
      exact h.symm
    subst hfd
    dsimp only
    rw [htd]

/-! Claim theorems. -/

/-- C1. `combine_with_headers` produces exactly: the existing header
pages before the 0-based january index (front matter), then for each of
the 12 months the header page at `january_page_index + month` if it
exists followed by that month's calendar page, then all remaining header
pages from `january_page_index + 12` on (back matter); out-of-range
header indices are skipped silently. For a 14-page header document,
`january_page = 2` and 12 calendar pages the output is exactly the
26-page interleaving. -/
theorem combine_with_headers_spec :
    (∀ (P : Type) (headerPages calendarPages : List P) (januaryPage : Nat),
      combine_with_headers headerPages januaryPage calendarPages
        = merge_spec headerPages januaryPage calendarPages)
    ∧ combine_with_headers (List.range 14) 2 ((List.range 12).map (fun i => i + 100))
        = [0, 1, 100, 2, 101, 3, 102, 4, 103, 5, 104, 6, 105, 7, 106, 8, 107,
           9, 108, 10, 109, 11, 110, 12, 111, 13]
    ∧ (combine_with_headers (List.range 14) 2
        ((List.range 12).map (fun i => i + 100))).length = 26 := by
  refine ⟨?_, by decide, by decide⟩
  intro P headerPages calendarPages januaryPage
  unfold combine_with_headers merge_spec
  congr 1
  · congr 1
    exact filterMap_getElem_range headerPages (januaryPage - 1)
  · exact filterMap_getElem_drop headerPages (januaryPage - 1 + 12)

/-- C2. Failing input for the first-Monday rule: September 1, 2025 is a
Monday (`pyWeekday = 0`), yet `get_holiday_date` returns September 8 —
the `days_ahead <= 0` adjustment in `_get_first_monday_of_month` skips a
month whose first day already is a Monday to the second Monday, contrary
to the claim (and to the function's own docstring). -/
theorem labor_day_2025_is_second_monday :
    get_holiday_date "labor_day" 2025 = some ⟨2025, 9, 8⟩
    ∧ pyWeekday ⟨2025, 9, 1⟩ = 0 := by
  constructor
  · rfl
  · rfl

/-- C3. Failing input for the week-tier invariant: generating year 2023
with the `calendar` module's firstweekday at its Python default (0,
Monday), the first month rendered (January 2023, which starts on a
Sunday) stores tier 6 in `current_month_weeks` — computed before
`cal.setfirstweekday(6)` — while the Sunday-first grid actually laid out
has 5 week rows; so the table rows are 1.30 in tall but `create_day_cell`
budgets cell heights for 1.10 in. Months after the first are consistent,
because the module state is already 6. -/
theorem first_month_week_tier_mismatch :
    (generate_calendar_only 0 2023).head? = some ⟨6, 5, 130, 110, 30, 148⟩
    ∧ ((generate_calendar_only 0 2023).drop 1).all
        (fun i => i.tierPassed == i.gridRows
          && i.cellAvailableHeightCenti == i.rowHeightCenti) = true := by
  constructor
  · rfl
  · rfl

/-- C5. The month layout picks its row height solely from the laid-out
week-row count by the table 4 ↦ 1.65 in, 5 ↦ 1.30 in, 6 ↦ 1.10 in
(hundredths of an inch here), with a 0.30 in header row and seven
1.48 in columns; March 2025 has 6 Sunday-first week rows, hence row
height 1.10 in, and any month with exactly 5 rows gets 1.30 in. -/
theorem month_row_height_policy :
    (∀ fwState y m, (generate_month_content fwState y m).1.rowHeightCenti
        = row_height_for_weeks ((generate_month_content fwState y m).1.gridRows))
    ∧ row_height_for_weeks 4 = 165
    ∧ row_height_for_weeks 5 = 130
    ∧ row_height_for_weeks 6 = 110
    ∧ (generate_month_content 6 2025 3).1.gridRows = 6
    ∧ (generate_month_content 6 2025 3).1.rowHeightCenti = 110
    ∧ (∀ fwState y m, (generate_month_content fwState y m).1.gridRows = 5 →
        (generate_month_content fwState y m).1.rowHeightCenti = 130)
    ∧ (∀ fwState y m, (generate_month_content fwState y m).1.headerHeightCenti = 30
        ∧ (generate_month_content fwState y m).1.colWidthCenti = 148) := by
  refine ⟨fun fwState y m => rfl, rfl, rfl, rfl, by rfl, by rfl, ?_,
    fun fwState y m => ⟨rfl, rfl⟩⟩
  intro fwState y m h
  show row_height_for_weeks (monthcalendar_weeks y m 6) = 130
  have h5 : monthcalendar_weeks y m 6 = 5 := h
  rw [h5]
  rfl

/-- C5 witness: January 2025 has exactly 5 Sunday-first week rows, and
the theorem then forces row height 1.30 in. -/
theorem month_row_height_policy_witness :
    (generate_month_content 6 2025 1).1.gridRows = 5
    ∧ (generate_month_content 6 2025 1).1.rowHeightCenti = 130 :=
  ⟨by rfl, month_row_height_policy.2.2.2.2.2.2.1 6 2025 1 (by rfl)⟩

/-- C9. Any holiday name outside the nine-value enumeration falls to the
final `else` of `get_holiday_date` and yields `none`, for every year. -/
theorem unknown_holiday_yields_none (holidayName : String) (year : Nat)
    (h1 : holidayName ≠ "new_years") (h2 : holidayName ≠ "memorial_day")
    (h3 : holidayName ≠ "independence_day") (h4 : holidayName ≠ "labor_day")
    (h5 : holidayName ≠ "thanksgiving") (h6 : holidayName ≠ "christmas")
    (h7 : holidayName ≠ "easter") (h8 : holidayName ≠ "mothers_day")
    (h9 : holidayName ≠ "fathers_day") :
    get_holiday_date holidayName year = none := by
  unfold get_holiday_date get_holiday_date_body
  simp [h1, h2, h3, h4, h5, h6, h7, h8, h9]

/-- C9 witness at a concrete unknown name and year. -/
theorem unknown_holiday_yields_none_witness :
    get_holiday_date "halloween" 2024 = none :=
  unknown_holiday_yields_none "halloween" 2024 (by decide) (by decide) (by decide)
    (by decide) (by decide) (by decide) (by decide) (by decide) (by decide)

/-- C7. The resolver never lets an exception escape: whenever the
unguarded body raises (models as `.error`), `get_holiday_date` returns
`none` — a normal outcome — and a returned date can only come from a
normally completed body. -/
theorem resolver_never_raises :
    (∀ (holidayName : String) (year : Nat) (e : String),
        get_holiday_date_body holidayName year = .error e →
        get_holiday_date holidayName year = none)
    ∧ (∀ (holidayName : String) (year : Nat) (d : Date),
        get_holiday_date holidayName year = some d →
        get_holiday_date_body holidayName year = .ok (some d)) := by
  constructor
  · intro holidayName year e h
    unfold get_holiday_date
    rw [h]
  · intro holidayName year d h
    unfold get_holiday_date at h
    rcases hb : get_holiday_date_body holidayName year with e | r
    · rw [hb] at h
      simp at h
    · rw [hb] at h
      simp only at h
      rw [h]

set_option maxRecDepth 4000 in
/-- C7 witness: `date(10000, 1, 1)` raises in the body (year above
Python's `date.max`), and the resolver maps it to `none`. -/
theorem resolver_never_raises_witness :
    get_holiday_date "new_years" 10000 = none :=
  resolver_never_raises.1 "new_years" 10000 "ValueError" (by rfl)

/-- C8. With exactly two images, `side_by_side` — and `auto`, which takes
the same branch — pastes the first input image onto the left half of the
320×200 canvas and the second onto the right half, purely by input
position: the payload type `α` is opaque, so no timestamp or other key
can influence placement. -/
theorem side_by_side_places_in_input_order {α : Type} (A B : α)
    (layoutPreference : ImageLayout)
    (h : layoutPreference = ImageLayout.auto
       ∨ layoutPreference = ImageLayout.side_by_side) :
    create_combined_image_pastes [some A, some B] layoutPreference 320 200
      = [(A, ⟨0, 0, 160, 200⟩), (B, ⟨160, 0, 160, 200⟩)]
    ∧ inLeftHalf ⟨0, 0, 160, 200⟩ 320 200
    ∧ inRightHalf ⟨160, 0, 160, 200⟩ 320 200 := by
  refine ⟨?_, by constructor <;> norm_num, by refine ⟨?_, ?_, ?_⟩ <;> norm_num⟩
  rcases h with h | h <;> subst h
  · rfl
  · rfl

/-- C8 witness at concrete payloads and the `auto` layout. -/
theorem side_by_side_places_in_input_order_witness :
    create_combined_image_pastes [some 0, some 1] ImageLayout.auto 320 200
      = [(0, ⟨0, 0, 160, 200⟩), (1, ⟨160, 0, 160, 200⟩)]
    ∧ inLeftHalf ⟨0, 0, 160, 200⟩ 320 200
    ∧ inRightHalf ⟨160, 0, 160, 200⟩ 320 200 :=
  side_by_side_places_in_input_order 0 1 ImageLayout.auto (Or.inl rfl)

/-- C10. On a day with more than one event, when combined-image creation
returns `None` the cell is still produced: the renderer falls back to the
first event in order that has an image (or the first event if none has
one) and renders a single-event cell (`isCombined = false`) with that
event's image path. -/
theorem multi_event_combined_failure_falls_back (day : Nat) (e : PyEvent)
    (rest : List PyEvent) (h : rest ≠ []) :
    create_day_cell day (e :: rest) none
      = DayCell.eventCell day
          (((e :: rest).find? (fun x => x.image.isSome)).getD e).image
          (get_combined_display_name (e :: rest)) false := by
  simp only [create_day_cell]
  rw [if_pos (List.length_pos.mpr h)]

/-- C10 witness: two events, the first without an image; the fallback
renders the second event's image path. -/
theorem multi_event_combined_failure_falls_back_witness :
    create_day_cell 5 [⟨2, 5, "a", none⟩, ⟨2, 5, "b", some "p"⟩] none
      = DayCell.eventCell 5 (some "p") "a & b" false :=
  (multi_event_combined_failure_falls_back 5 ⟨2, 5, "a", none⟩
    [⟨2, 5, "b", some "p"⟩] (by decide)).trans (by decide)

set_option maxRecDepth 4000 in
/-- C6 counterexample. For `n = 54` the target of
`_get_nth_weekday_of_month(2024, 1, 0, 54)` is January 1, 2024 plus 371
days = January 6, **2025**: its month number matches, so the function
returns that date of the following year instead of `none`, although the
54th Monday of January 2024 does not exist and the date does not fall in
the input month. -/
theorem nth_weekday_year_wrap_counterexample :
    get_nth_weekday_of_month 2024 1 0 54 = .ok (some ⟨2025, 1, 6⟩)
    ∧ (⟨2025, 1, 6⟩ : Date).year ≠ 2024 := by
  have c01 : addDays (⟨2024, 1, 1⟩ : Date) 31 = ⟨2024, 2, 1⟩ := by decide
  have c02 : addDays (⟨2024, 2, 1⟩ : Date) 29 = ⟨2024, 3, 1⟩ := by decide
  have c03 : addDays (⟨2024, 3, 1⟩ : Date) 31 = ⟨2024, 4, 1⟩ := by decide
  have c04 : addDays (⟨2024, 4, 1⟩ : Date) 30 = ⟨2024, 5, 1⟩ := by decide
  have c05 : addDays (⟨2024, 5, 1⟩ : Date) 31 = ⟨2024, 6, 1⟩ := by decide
  have c06 : addDays (⟨2024, 6, 1⟩ : Date) 30 = ⟨2024, 7, 1⟩ := by decide
  have c07 : addDays (⟨2024, 7, 1⟩ : Date) 31 = ⟨2024, 8, 1⟩ := by decide
  have c08 : addDays (⟨2024, 8, 1⟩ : Date) 31 = ⟨2024, 9, 1⟩ := by decide
  have c09 : addDays (⟨2024, 9, 1⟩ : Date) 30 = ⟨2024, 10, 1⟩ := by decide
  have c10 : addDays (⟨2024, 10, 1⟩ : Date) 31 = ⟨2024, 11, 1⟩ := by decide
  have c11 : addDays (⟨2024, 11, 1⟩ : Date) 30 = ⟨2024, 12, 1⟩ := by decide
  have c12 : addDays (⟨2024, 12, 1⟩ : Date) 31 = ⟨2025, 1, 1⟩ := by decide
  have c13 : addDays (⟨2025, 1, 1⟩ : Date) 5 = ⟨2025, 1, 6⟩ := by decide
  have c1 : addDays (⟨2024, 1, 1⟩ : Date) 371 = ⟨2025, 1, 6⟩ := by
    rw [show (371 : Nat) = 31 + 340 from rfl, addDays_add, c01]
    rw [show (340 : Nat) = 29 + 311 from rfl, addDays_add, c02]
    rw [show (311 : Nat) = 31 + 280 from rfl, addDays_add, c03]
    rw [show (280 : Nat) = 30 + 250 from rfl, addDays_add, c04]
    rw [show (250 : Nat) = 31 + 219 from rfl, addDays_add, c05]
    rw [show (219 : Nat) = 30 + 189 from rfl, addDays_add, c06]
    rw [show (189 : Nat) = 31 + 158 from rfl, addDays_add, c07]
    rw [show (158 : Nat) = 31 + 127 from rfl, addDays_add, c08]
    rw [show (127 : Nat) = 30 + 97 from rfl, addDays_add, c09]
    rw [show (97 : Nat) = 31 + 66 from rfl, addDays_add, c10]
    rw [show (66 : Nat) = 30 + 36 from rfl, addDays_add, c11]
    rw [show (36 : Nat) = 31 + 5 from rfl, addDays_add, c12]
    exact c13
  have hy : 1 ≤ (addDays ⟨2024, 1, 1⟩ ((371 : Int)).toNat).year
      ∧ (addDays ⟨2024, 1, 1⟩ ((371 : Int)).toNat).year ≤ 9999 := by
    rw [show ((371 : Int)).toNat = 371 from rfl, c1]
    exact ⟨by norm_num, by norm_num⟩
  have htd371 := date_add_timedelta_nonneg ⟨2024, 1, 1⟩ 371 (by norm_num) hy
  rw [show ((371 : Int)).toNat = 371 from rfl, c1] at htd371
  refine ⟨(get_nth_weekday_eq_of_ok 2024 1 0 54 ⟨2025, 1, 6⟩ rfl ?_).trans (by rfl),
    by decide⟩
  rw [show pyWeekday ⟨2024, 1, 1⟩ = 0 from rfl]
  norm_num
  exact htd371

set_option maxRecDepth 4000 in
/-- C6 (amended). For every year 1..9998, month 1..12, weekday 0..6 and
1 ≤ n ≤ 5 (every call in the code has n ≤ 4), the nth-weekday
computation returns the month's first occurrence of the weekday — a date
of that month with matching weekday and day ≤ 7 — plus `(n-1)` weeks
when that day still fits inside the month, and `none` when it does not:
never a date of an adjacent month. In particular Thanksgiving 2024
resolves to Thursday, November 28 (the fourth Thursday). For larger `n`
the target can wrap into the same month number of a later year and is
then returned, see the counterexample theorem. -/
theorem nth_weekday_of_month_spec :
    (∀ y m w n : Nat, 1 ≤ y → y ≤ 9998 → 1 ≤ m → m ≤ 12 → w ≤ 6 → 1 ≤ n → n ≤ 5 →
      pyWeekday (first_weekday_occurrence y m w) = w
      ∧ (first_weekday_occurrence y m w).year = y
      ∧ (first_weekday_occurrence y m w).month = m
      ∧ (first_weekday_occurrence y m w).day ≤ 7
      ∧ get_nth_weekday_of_month y m w n
          = .ok (if (first_weekday_occurrence y m w).day + (n - 1) * 7 ≤ daysInMonth y m
                 then some ⟨y, m, (first_weekday_occurrence y m w).day + (n - 1) * 7⟩
                 else none))
    ∧ get_holiday_date "thanksgiving" 2024 = some ⟨2024, 11, 28⟩ := by
  refine ⟨?_, by rfl⟩
  intro y m w n hy1 hy2 hm1 hm2 hw hn1 hn5
  obtain ⟨hd28, hd31⟩ := daysInMonth_bounds y m
  have hfw7 : pyWeekday ⟨y, m, 1⟩ < 7 := by
    unfold pyWeekday
    exact Nat.mod_lt _ (by omega)
  have hda7 : (w + 7 - pyWeekday ⟨y, m, 1⟩) % 7 < 7 := Nat.mod_lt _ (by omega)
  have hday : (first_weekday_occurrence y m w).day
      = 1 + (w + 7 - pyWeekday ⟨y, m, 1⟩) % 7 := rfl
  have hfw_eq : pyWeekday ⟨y, m, 1⟩ = (toOrdinal ⟨y, m, 1⟩ + 6) % 7 := rfl
  refine ⟨?_, rfl, rfl, by rw [hday]; omega, ?_⟩
  · show (toOrdinal ⟨y, m, 1 + (w + 7 - pyWeekday ⟨y, m, 1⟩) % 7⟩ + 6) % 7 = w
    rw [toOrdinal_day_shift]
    omega
  · have hpy : pyDate y m 1 = .ok ⟨y, m, 1⟩ := by
      have hc : 1 ≤ y ∧ y ≤ 9999 ∧ 1 ≤ m ∧ m ≤ 12 ∧ 1 ≤ 1 ∧ 1 ≤ daysInMonth y m :=
        ⟨hy1, by omega, hm1, hm2, le_refl 1, by omega⟩
      unfold pyDate
      rw [if_pos hc]
    have harg : (if (w : Int) - (pyWeekday ⟨y, m, 1⟩ : Int) < 0
          then (w : Int) - (pyWeekday ⟨y, m, 1⟩ : Int) + 7
          else (w : Int) - (pyWeekday ⟨y, m, 1⟩ : Int)) + ((n : Int) - 1) * 7
        = (((w + 7 - pyWeekday ⟨y, m, 1⟩) % 7 + (n - 1) * 7 : Nat) : Int) := by
      split_ifs with hneg <;> omega
    have hKnn : (0 : Int) ≤ (((w + 7 - pyWeekday ⟨y, m, 1⟩) % 7 + (n - 1) * 7 : Nat) : Int) :=
      Int.natCast_nonneg _
    have hKtoNat : ((((w + 7 - pyWeekday ⟨y, m, 1⟩) % 7 + (n - 1) * 7 : Nat) : Int)).toNat
        = (w + 7 - pyWeekday ⟨y, m, 1⟩) % 7 + (n - 1) * 7 := by omega
    by_cases hcase :
        1 + ((w + 7 - pyWeekday ⟨y, m, 1⟩) % 7 + (n - 1) * 7) ≤ daysInMonth y m
    · -- the target stays inside the month
      have htgt : addDays ⟨y, m, 1⟩ ((w + 7 - pyWeekday ⟨y, m, 1⟩) % 7 + (n - 1) * 7)
          = ⟨y, m, 1 + ((w + 7 - pyWeekday ⟨y, m, 1⟩) % 7 + (n - 1) * 7)⟩ :=
        addDays_within y m _ 1 (le_refl 1) hcase
      have hyr : 1 ≤ (addDays ⟨y, m, 1⟩
            ((((w + 7 - pyWeekday ⟨y, m, 1⟩) % 7 + (n - 1) * 7 : Nat) : Int)).toNat).year
          ∧ (addDays ⟨y, m, 1⟩
            ((((w + 7 - pyWeekday ⟨y, m, 1⟩) % 7 + (n - 1) * 7 : Nat) : Int)).toNat).year
            ≤ 9999 := by
        rw [hKtoNat, htgt]
        exact ⟨hy1, by show y ≤ 9999; omega⟩
      have htd := date_add_timedelta_nonneg ⟨y, m, 1⟩
        (((w + 7 - pyWeekday ⟨y, m, 1⟩) % 7 + (n - 1) * 7 : Nat) : Int) hKnn hyr
      rw [hKtoNat, htgt] at htd
      rw [← harg] at htd
      rw [get_nth_weekday_eq_of_ok y m w n _ hpy htd]
      rw [if_pos rfl, hday, if_pos (by omega)]
      have hdayeq : (1 + (w + 7 - pyWeekday ⟨y, m, 1⟩) % 7) + (n - 1) * 7
          = 1 + ((w + 7 - pyWeekday ⟨y, m, 1⟩) % 7 + (n - 1) * 7) := by omega
      rw [hdayeq]
    · -- the target overflows into the following month (or next January)
      push_neg at hcase
      rcases Nat.lt_or_ge m 12 with hm12 | hm12
      · obtain ⟨hn28, hn31⟩ := daysInMonth_bounds y (m + 1)
        have htgt : addDays ⟨y, m, 1⟩ ((w + 7 - pyWeekday ⟨y, m, 1⟩) % 7 + (n - 1) * 7)
            = ⟨y, m + 1,
               1 + ((w + 7 - pyWeekday ⟨y, m, 1⟩) % 7 + (n - 1) * 7) - daysInMonth y m⟩ :=
          addDays_next_month y m hm12 _ 1 (le_refl 1) (by omega) (by omega) (by omega)
        have hyr : 1 ≤ (addDays ⟨y, m, 1⟩
              ((((w + 7 - pyWeekday ⟨y, m, 1⟩) % 7 + (n - 1) * 7 : Nat) : Int)).toNat).year
            ∧ (addDays ⟨y, m, 1⟩
              ((((w + 7 - pyWeekday ⟨y, m, 1⟩) % 7 + (n - 1) * 7 : Nat) : Int)).toNat).year
              ≤ 9999 := by
          rw [hKtoNat, htgt]
          exact ⟨hy1, by show y ≤ 9999; omega⟩
        have htd := date_add_timedelta_nonneg ⟨y, m, 1⟩
          (((w + 7 - pyWeekday ⟨y, m, 1⟩) % 7 + (n - 1) * 7 : Nat) : Int) hKnn hyr
        rw [hKtoNat, htgt] at htd
        rw [← harg] at htd
        rw [get_nth_weekday_eq_of_ok y m w n _ hpy htd]
        rw [if_neg (by show m + 1 ≠ m; omega), hday, if_neg (by omega)]
      · have hm12e : m = 12 := by omega
        subst hm12e
        have htgt : addDays ⟨y, 12, 1⟩ ((w + 7 - pyWeekday ⟨y, 12, 1⟩) % 7 + (n - 1) * 7)
            = ⟨y + 1, 1,
               1 + ((w + 7 - pyWeekday ⟨y, 12, 1⟩) % 7 + (n - 1) * 7) - daysInMonth y 12⟩ :=
          addDays_next_year y _ 1 (le_refl 1) (by omega) (by omega) (by omega)
        have hyr : 1 ≤ (addDays ⟨y, 12, 1⟩
              ((((w + 7 - pyWeekday ⟨y, 12, 1⟩) % 7 + (n - 1) * 7 : Nat) : Int)).toNat).year
            ∧ (addDays ⟨y, 12, 1⟩
              ((((w + 7 - pyWeekday ⟨y, 12, 1⟩) % 7 + (n - 1) * 7 : Nat) : Int)).toNat).year
              ≤ 9999 := by
          rw [hKtoNat, htgt]
          exact ⟨by show 1 ≤ y + 1; omega, by show y + 1 ≤ 9999; omega⟩
        have htd := date_add_timedelta_nonneg ⟨y, 12, 1⟩
          (((w + 7 - pyWeekday ⟨y, 12, 1⟩) % 7 + (n - 1) * 7 : Nat) : Int) hKnn hyr
        rw [hKtoNat, htgt] at htd
        rw [← harg] at htd
        rw [get_nth_weekday_eq_of_ok y 12 w n _ hpy htd]
        rw [if_neg (by show 1 ≠ 12; omega), hday, if_neg (by omega)]

/-- C6 witness: the general statement applied to Thanksgiving's
parameters (November 2024, Thursday, n = 4). -/
theorem nth_weekday_of_month_spec_witness :
    pyWeekday (first_weekday_occurrence 2024 11 3) = 3
    ∧ (first_weekday_occurrence 2024 11 3).year = 2024
    ∧ (first_weekday_occurrence 2024 11 3).month = 11
    ∧ (first_weekday_occurrence 2024 11 3).day ≤ 7
    ∧ get_nth_weekday_of_month 2024 11 3 4
        = .ok (if (first_weekday_occurrence 2024 11 3).day + (4 - 1) * 7 ≤ daysInMonth 2024 11
               then some ⟨2024, 11, (first_weekday_occurrence 2024 11 3).day + (4 - 1) * 7⟩
               else none) :=
  nth_weekday_of_month_spec.1 2024 11 3 4 (by norm_num) (by norm_num) (by norm_num)
    (by norm_num) (by norm_num) (by norm_num) (by norm_num)

/-- Bounds of the computus output for every integer year: the month is
March or April, the day is 1..31, and an April result never exceeds
day 30 (the formula's value `h+l-7m+114` is at most 149 < 154). -/
theorem calculate_easter_bounds (Y : Int) :
    3 ≤ (calculate_easter Y).1 ∧ (calculate_easter Y).1 ≤ 4
    ∧ 1 ≤ (calculate_easter Y).2 ∧ (calculate_easter Y).2 ≤ 31
    ∧ ((calculate_easter Y).1 = 4 → (calculate_easter Y).2 ≤ 30) := by
  unfold calculate_easter
  dsimp only
  omega

/-- C4. For every Python-representable year, `resolve(easter, Y)` is
exactly the date given by the spec's anonymous Gregorian computus with
floor-division integer semantics, and in particular Easter 2024 is
March 31 and Easter 2025 is April 20. -/
theorem easter_matches_spec_computus :
    (∀ Y : Nat, 1 ≤ Y → Y ≤ 9999 →
      get_holiday_date "easter" Y
        = some ⟨Y, (easter_spec_formula (Y : Int)).1.toNat,
                   (easter_spec_formula (Y : Int)).2.toNat⟩)
    ∧ get_holiday_date "easter" 2024 = some ⟨2024, 3, 31⟩
    ∧ get_holiday_date "easter" 2025 = some ⟨2025, 4, 20⟩ := by
  refine ⟨?_, by rfl, by rfl⟩
  intro Y h1 h2
  obtain ⟨b1, b2, b3, b4, b5⟩ := calculate_easter_bounds (Y : Int)
  have hspec : easter_spec_formula (Y : Int) = calculate_easter (Y : Int) := rfl
  have hm34 : (calculate_easter (Y : Int)).1 = 3 ∨ (calculate_easter (Y : Int)).1 = 4 := by
    omega
  have hdim : (calculate_easter (Y : Int)).2.toNat
      ≤ daysInMonth Y (calculate_easter (Y : Int)).1.toNat := by
    rcases hm34 with h3 | h4
    · rw [h3]
      have h31 : daysInMonth Y ((3 : Int)).toNat = 31 := rfl
      rw [h31]
      omega
    · rw [h4]
      have h30 : daysInMonth Y ((4 : Int)).toNat = 30 := rfl
      rw [h30]
      omega
  have hed : easter_date Y = .ok ⟨Y, (calculate_easter (Y : Int)).1.toNat,
      (calculate_easter (Y : Int)).2.toNat⟩ := by
    unfold easter_date
    dsimp only
    unfold pyDate
    have hc : 1 ≤ Y ∧ Y ≤ 9999
        ∧ 1 ≤ (calculate_easter (Y : Int)).1.toNat
        ∧ (calculate_easter (Y : Int)).1.toNat ≤ 12
        ∧ 1 ≤ (calculate_easter (Y : Int)).2.toNat
        ∧ (calculate_easter (Y : Int)).2.toNat
            ≤ daysInMonth Y (calculate_easter (Y : Int)).1.toNat :=
      ⟨h1, h2, by omega, by omega, by omega, hdim⟩
    rw [if_pos hc]
  have hb : get_holiday_date_body "easter" Y = (easter_date Y).map some := rfl
  unfold get_holiday_date
  rw [hb, hed, hspec]
  rfl

/-- C4 witness: the general statement applied at year 2024. -/
theorem easter_matches_spec_computus_witness :
    get_holiday_date "easter" 2024
      = some ⟨2024, (easter_spec_formula ((2024 : Nat) : Int)).1.toNat,
                 (easter_spec_formula ((2024 : Nat) : Int)).2.toNat⟩ :=
  easter_matches_spec_computus.1 2024 (by norm_num) (by norm_num)

end Cal
